import Mathlib

/-!
Verification model of `cn616a_live_plot_new.py` (BergsmanGroup/brg_cn616a).

The file shallowly embeds the ingestion / state-reconciliation core of the
log viewer: the per-zone state (`ZoneSeries`), line ingestion
(`_ingest_line`, here `ingest_line`), the full-load loop of `open_log`
(`load_loop` / `open_log_model`), the tail loop of `_tail_tick`
(`tail_tick`), and the trace-clear / reset operations.

Python values decoded from JSON are modelled by `PVal`; external library
calls (`json.loads`, `datetime.fromisoformat`, `datetime.fromtimestamp`,
`re.search`) are modelled by explicit Lean functions or, for JSON parsing,
by supplying each raw line together with its parse outcome (`Parsed`).
Machine floats are modelled by `ℚ` plus an explicit NaN constructor;
none of the verified properties depend on rounding.
-/

namespace CN616A

/-- A Python value as produced by `json.loads` at leaf positions:
`None`, `bool`, `int`, finite `float` (as `ℚ`), the float NaN, or `str`.
Nested arrays/objects never reach the modelled field reads. -/
inductive PVal where
  | vnone
  | vbool (b : Bool)
  | vint (n : Int)
  | vnum (q : ℚ)
  | vnan
  | vstr (s : String)
deriving DecidableEq, Repr

/-- A decoded JSON object: an association list from key to value.
The logger never emits duplicate keys, so first-key lookup agrees with
Python dict semantics. -/
abbrev PObj : Type := List (String × PVal)

/-- Python `obj.get(k)`: the stored value, or `None` when the key is absent
(a key present with JSON `null` also yields `None`, i.e. `vnone`). -/
def pyGet (o : PObj) (k : String) : PVal :=
  match o with
  | [] => .vnone
  | (k1, v) :: rest => if k1 = k then v else pyGet rest k

/-- Python `obj.get(k, d)`: the stored value, or the default `d` only when
the key is absent. -/
def pyGetD (o : PObj) (k : String) (d : PVal) : PVal :=
  match o with
  | [] => d
  | (k1, v) :: rest => if k1 = k then v else pyGetD rest k d

/-- Python truthiness of a `PVal` (`bool(x)`): `None`, `False`, `0`, `0.0`
and `""` are falsy; NaN is truthy. -/
def truthy : PVal → Bool
  | .vnone => false
  | .vbool b => b
  | .vint n => n != 0
  | .vnum q => q != 0
  | .vnan => true
  | .vstr s => s ≠ ""

/-- Python `a or b`: `a` if truthy, else `b`. -/
def pyOr (a b : PVal) : PVal := if truthy a then a else b

/-- Python `isinstance(x, int)` together with the int value used as a dict
key; `bool` is a subclass of `int` in Python (`True` hashes as `1`). -/
def pyToInt? : PVal → Option Int
  | .vint n => some n
  | .vbool b => some (if b then 1 else 0)
  | _ => none

/-- Source `is_nan(x)`: `x is None or (isinstance(x, float) and x != x)`. -/
def is_nan : PVal → Bool
  | .vnone => true
  | .vnan => true
  | _ => false

/-- Digits already checked with `Char.isDigit`, read as a base-10 number. -/
def digitsVal (ds : List Char) : Nat :=
  ds.foldl (fun a c => 10 * a + (c.toNat - 48)) 0

/-- Splits off the maximal leading run of ASCII digits. -/
def takeDigits : List Char → List Char × List Char
  | [] => ([], [])
  | c :: rest =>
    if c.isDigit then
      let p := takeDigits rest
      (c :: p.1, p.2)
    else ([], c :: rest)

/-- Model of Python `float(str)` restricted to simple decimal literals
(optional sign, digits, optional fractional part). Exponents, `inf`,
`nan` and surrounding whitespace are not modelled; no claim exercises a
string-typed numeric field. `none` models the raised `ValueError`. -/
def floatOfChars? (l : List Char) : Option ℚ :=
  let p := takeDigits l
  match p.2 with
  | [] => if p.1.isEmpty then none else some (digitsVal p.1)
  | '.' :: r2 =>
    let q := takeDigits r2
    if q.2.isEmpty && (!p.1.isEmpty || !q.1.isEmpty) then
      some ((digitsVal p.1 : ℚ) + (digitsVal q.1 : ℚ) / (10 ^ q.1.length : ℚ))
    else none
  | _ => none

/-- Model of Python `float(str)` including a leading minus sign. -/
def floatOfString? (s : String) : Option ℚ :=
  match s.data with
  | '-' :: rest => (floatOfChars? rest).map Neg.neg
  | l => floatOfChars? l

/-- Python `float(x)` on a `PVal`; `none` models a raised exception.
NaN maps to `none` here: the two call sites either exclude NaN beforehand
(the `is_nan` guard before `float(pv)`) or feed the result to
`fromtimestamp`, which raises `ValueError` on NaN, so the observable
behavior agrees with the source either way. -/
def pyFloat? : PVal → Option ℚ
  | .vint n => some n
  | .vnum q => some q
  | .vbool b => some (if b then 1 else 0)
  | .vnan => none
  | .vnone => none
  | .vstr s => floatOfString? s

/-- A timezone-aware instant as stored in a zone's series: either the
result of `epoch_to_dt_local` (the instant, in epoch seconds — timezone
conversion preserves the instant) or of `datetime.fromisoformat` (kept
symbolic as the accepted string). -/
inductive DT where
  | ofEpoch (q : ℚ)
  | ofISO (s : String)
deriving DecidableEq, Repr

/-- True when the string starts with a `YYYY-MM-DD` date. -/
def isoDateShaped : List Char → Bool
  | y1 :: y2 :: y3 :: y4 :: '-' :: m1 :: m2 :: '-' :: d1 :: d2 :: _ =>
    y1.isDigit && y2.isDigit && y3.isDigit && y4.isDigit &&
      m1.isDigit && m2.isDigit && d1.isDigit && d2.isDigit
  | _ => false

/-- Model of the external `datetime.fromisoformat`: a string is accepted
iff it starts with a four-digit-year ISO date; finer calendar validation
of the external library is not modelled — no claim depends on it. -/
def fromisoformat? (s : String) : Option DT :=
  if isoDateShaped s.data then some (.ofISO s) else none

/-- Model of the source `epoch_to_dt_local` composed with the `float`
conversion already done: `datetime.fromtimestamp` raises outside the
representable datetime range (year 1 to 9999), which the source catches;
inside it the result is the instant `q` seconds after the epoch. -/
def epoch_to_dt_local? (q : ℚ) : Option DT :=
  if (-62135596800 : ℚ) ≤ q ∧ q < 253402300800 then some (.ofEpoch q) else none

/-- Per-zone state: the plotted series (`t`, `pv`) plus the last-known
snapshot fields, exactly the fields of the source dataclass `ZoneSeries`. -/
structure ZoneSeries where
  zone : Int
  t : List DT
  pv : List ℚ
  last_pv : PVal
  last_sp : PVal
  last_out : PVal
  last_method : PVal
  last_mode : PVal
  last_autotune : PVal
  last_autotune_sp : PVal
deriving DecidableEq, Repr

/-- The dataclass defaults: empty series, `None`/em-dash snapshot. -/
def ZoneSeries.init (z : Int) : ZoneSeries :=
  { zone := z
    t := []
    pv := []
    last_pv := .vnone
    last_sp := .vnone
    last_out := .vnone
    last_method := .vstr "—"
    last_mode := .vstr "—"
    last_autotune := .vnone
    last_autotune_sp := .vnone }

/-- Source `ZoneSeries.clear_trace`: `self.t.clear(); self.pv.clear()`. -/
def ZoneSeries.clear_trace (s : ZoneSeries) : ZoneSeries :=
  { s with t := [], pv := [] }

/-- The per-zone reset performed by `open_log` (lines 296-304): clear the
trace and reset every snapshot field to its default. -/
def reset_zone (s : ZoneSeries) : ZoneSeries :=
  { s with
    t := []
    pv := []
    last_pv := .vnone
    last_sp := .vnone
    last_out := .vnone
    last_method := .vstr "—"
    last_mode := .vstr "—"
    last_autotune := .vnone
    last_autotune_sp := .vnone }

/-- `self.series_by_zone`: a dict from zone id to `ZoneSeries`, modelled
as an insertion-ordered association list with unique keys. -/
abbrev ZoneMap : Type := List (Int × ZoneSeries)

/-- Dict lookup `self.series_by_zone.get(z)`. -/
def findZone : ZoneMap → Int → Option ZoneSeries
  | [], _ => none
  | (k, s) :: rest, z => if k = z then some s else findZone rest z

/-- Lookup after a membership guarantee; the default is never reached on
the paths that use it (the zone was just ensured). -/
def getZone (m : ZoneMap) (z : Int) : ZoneSeries :=
  (findZone m z).getD (ZoneSeries.init z)

/-- In-place update of the entry for `z` (Python mutates the stored
object; keys are unique, absent keys leave the map unchanged). -/
def setZone : ZoneMap → Int → ZoneSeries → ZoneMap
  | [], _, _ => []
  | (k, v) :: rest, z, s =>
    (if k = z then (k, s) else (k, v)) :: setZone rest z s

/-- Source `_ensure_zone`: create a fresh `ZoneSeries` for an unseen zone
id (the companion `ZoneTab` view creation is presentation-layer). -/
def ensure_zone (m : ZoneMap) (z : Int) : ZoneMap :=
  if (findZone m z).isSome then m else m ++ [(z, ZoneSeries.init z)]

/-- `DEFAULT_ZONES = [1, 2, 3, 4, 5, 6]`. -/
def DEFAULT_ZONES : List Int := [1, 2, 3, 4, 5, 6]

/-- The viewer's initial map: one default `ZoneSeries` per default zone. -/
def initState : ZoneMap := DEFAULT_ZONES.map (fun z => (z, ZoneSeries.init z))

/-- Outcome of `json.loads` on one (already stripped) raw line. `fail`
covers an empty line and malformed JSON (the `except` path); `scalar`
covers valid JSON that is not an object, on which the subsequent
`obj.get` raises `AttributeError`. -/
inductive Parsed where
  | fail
  | scalar (v : PVal)
  | obj (o : PObj)
deriving DecidableEq, Repr

/-- Result of `_ingest_line`: a normal return value (the zone id for a
telemetry line with a valid zone, else `None`), or an uncaught exception
escaping the function. -/
inductive IngestOut where
  | ret (z : Option Int)
  | exn
deriving DecidableEq, Repr

/-- The source timestamp resolution (lines 382-397): prefer `t_epoch_s`
(any non-`None` value, converted via `float` then `epoch_to_dt_local`,
exceptions caught); else require a string `ts` accepted by
`datetime.fromisoformat`. `none` corresponds to the source's early
`return z`. -/
def resolveDt (o : PObj) : Option DT :=
  if pyGet o "t_epoch_s" = .vnone then
    match pyGet o "ts" with
    | .vstr ts => fromisoformat? ts
    | _ => none
  else
    match pyFloat? (pyGet o "t_epoch_s") with
    | some q => epoch_to_dt_local? q
    | none => none

/-- Result of `pv_val = None if is_nan(pv) else float(pv)`: the computed
optional value, or a raised exception from `float`. -/
inductive PvRes where
  | val (q : Option ℚ)
  | exn
deriving DecidableEq, Repr

/-- The source pv conversion (line 403). -/
def pvVal? (pv : PVal) : PvRes :=
  if is_nan pv then .val none
  else
    match pyFloat? pv with
    | some q => .val (some q)
    | none => .exn

/-- The telemetry autotune-setpoint alias chain (lines 419-424):
`obj.get("autotune_sp_c") or obj.get("autotune_setpoint_c") or
obj.get("autotune_setpoint") or s.last_autotune_sp`. A Python `or` chain
yields the first truthy operand, else the last operand. -/
def telemetrySp (o : PObj) (prev : PVal) : PVal :=
  pyOr (pyGet o "autotune_sp_c")
    (pyOr (pyGet o "autotune_setpoint_c")
      (pyOr (pyGet o "autotune_setpoint") prev))

/-- The event alias chain (lines 360-366), two extra generic aliases. -/
def eventSp (o : PObj) : PVal :=
  pyOr (pyGet o "autotune_sp_c")
    (pyOr (pyGet o "autotune_setpoint_c")
      (pyOr (pyGet o "autotune_setpoint")
        (pyOr (pyGet o "sp") (pyGet o "setpoint"))))

/-- The event branch of `_ingest_line` (lines 356-369). -/
def applyEvent (m : ZoneMap) (o : PObj) : ZoneMap × IngestOut :=
  match pyToInt? (pyGet o "zone") with
  | some z =>
    let m1 := ensure_zone m z
    let sp := eventSp o
    if sp ≠ .vnone then
      (setZone m1 z { getZone m1 z with last_autotune_sp := sp }, .ret none)
    else (m1, .ret none)
  | none => (m, .ret none)

/-- The telemetry branch of `_ingest_line` (lines 374-426), entered with
the already-validated integer zone `z`. -/
def applyTelemetry (m : ZoneMap) (o : PObj) (z : Int) : ZoneMap × IngestOut :=
  let m1 := ensure_zone m z
  match resolveDt o with
  | none => (m1, .ret (some z))
  | some dt =>
    let s := getZone m1 z
    let pv := pyGet o "pv_c"
    match pvVal? pv with
    | .exn => (m1, .exn)
    | .val pv_val =>
      let s1 :=
        match pv_val with
        | some q => { s with t := s.t ++ [dt], pv := s.pv ++ [q] }
        | none => s
      let s2 :=
        { s1 with
          last_pv := pv
          last_sp := pyGet o "sp_abs_c"
          last_out := pyGet o "output_pct"
          last_method := pyGetD o "method" (.vstr "—")
          last_mode := pyGetD o "mode" (.vstr "—")
          last_autotune := pyGet o "autotune"
          last_autotune_sp := telemetrySp o s1.last_autotune_sp }
      (setZone m1 z s2, .ret (some z))

/-- Source `_ingest_line`, given the parse outcome of the stripped line. -/
def ingest_line (m : ZoneMap) (p : Parsed) : ZoneMap × IngestOut :=
  match p with
  | .fail => (m, .ret none)
  | .scalar _ => (m, .exn)
  | .obj o =>
    if pyGet o "type" = .vstr "event" then applyEvent m o
    else if pyGet o "type" = .vstr "telemetry" then
      match pyToInt? (pyGet o "zone") with
      | some z => applyTelemetry m o z
      | none => (m, .ret none)
    else (m, .ret none)

/-- Result of the full-load part of `open_log` (lines 306-318): the final
zone map, the line and telemetry counters shown in the status bar, and
whether an exception aborted the loop (the "Failed to read log" path). -/
structure LoadResult where
  state : ZoneMap
  n_lines : Nat
  n_tel : Nat
  aborted : Bool
deriving DecidableEq, Repr

/-- Does the first list start the second one (element-wise equality)? -/
def startsWithL : List Char → List Char → Bool
  | [], _ => true
  | _ :: _, [] => false
  | a :: as, b :: bs => a = b && startsWithL as bs

/-- Python `sub in s` on character lists: some contiguous occurrence. -/
def containsL (sub : List Char) : List Char → Bool
  | [] => sub.isEmpty
  | c :: rest => startsWithL sub (c :: rest) || containsL sub rest

/-- The literal substring the source tests raw lines against. -/
def telLit : List Char := "\"type\": \"telemetry\"".data

/-- The raw-text telemetry test used by both `open_log` (line 313) and
`_tail_tick` (line 440). -/
def containsTelL (l : List Char) : Bool := containsL telLit l

/-- One step of the `open_log` read loop: count every physical line,
count a telemetry line by raw substring, then ingest; an uncaught
exception from `_ingest_line` aborts the whole load (the surrounding
`try` reports "Failed to read log"), keeping the mutations made so far. -/
def load_loop (m : ZoneMap) (nl nt : Nat) :
    List (List Char × Parsed) → LoadResult
  | [] => ⟨m, nl, nt, false⟩
  | (raw, p) :: rest =>
    let nl1 := nl + 1
    let nt1 := if containsTelL raw then nt + 1 else nt
    match ingest_line m p with
    | (m1, .exn) => ⟨m1, nl1, nt1, true⟩
    | (m1, .ret _) => load_loop m1 nl1 nt1 rest

/-- Reset of every known zone performed by `open_log` before reloading. -/
def resetAll (m : ZoneMap) : ZoneMap := m.map (fun p => (p.1, reset_zone p.2))

/-- The state/counter part of `open_log`: reset every zone, then feed each
raw line (paired with its `json.loads` outcome) through `_ingest_line`. -/
def open_log_model (m : ZoneMap) (lines : List (List Char × Parsed)) :
    LoadResult :=
  load_loop (resetAll m) 0 0 lines

/-- Python `\s` on the ASCII range, as used by `re.search`. -/
def isWsPy (c : Char) : Bool :=
  c = ' ' || c = '\t' || c = '\n' || c = '\r' || c = '\x0b' || c = '\x0c'

/-- Drops the first list from the front of the second, or fails. -/
def dropLit : List Char → List Char → Option (List Char)
  | [], l => some l
  | _ :: _, [] => none
  | a :: as, b :: bs => if a = b then dropLit as bs else none

/-- Skips leading regex whitespace. -/
def skipWs : List Char → List Char
  | [] => []
  | c :: rest => if isWsPy c then skipWs rest else c :: rest

/-- The literal `"zone"` the fallback regex anchors on. -/
def zoneLit : List Char := "\"zone\"".data

/-- Attempts the pattern `"zone"\s*:\s*(\d+)` at the head of the list:
the quoted literal, optional whitespace, a colon, optional whitespace,
then a maximal non-empty digit run whose value is the captured zone id. -/
def matchZoneAt (l : List Char) : Option Int :=
  match dropLit zoneLit l with
  | none => none
  | some r1 =>
    match skipWs r1 with
    | ':' :: r3 =>
      let p := takeDigits (skipWs r3)
      if p.1.isEmpty then none else some (digitsVal p.1 : Int)
    | _ => none

/-- Model of `re.search(r'"zone"\s*:\s*(\d+)', line)` followed by
`int(m.group(1))`: the leftmost match wins. -/
def zoneScan : List Char → Option Int
  | [] => none
  | c :: rest =>
    match matchZoneAt (c :: rest) with
    | some n => some n
    | none => zoneScan rest

/-- Splits a character stream into Python `readlines` chunks: every line
keeps its terminating newline, and a trailing fragment without one is
returned as a final chunk (universal-newline translation of a text-mode
file maps CRLF to a single newline before this point). -/
def splitAux (acc : List Char) : List Char → List (List Char)
  | [] => if acc.isEmpty then [] else [acc.reverse]
  | c :: rest =>
    if c = '\n' then ((c :: acc).reverse) :: splitAux [] rest
    else splitAux (c :: acc) rest

/-- Python `fp.readlines()` applied to the remainder of the stream. -/
def splitLinesKeep (l : List Char) : List (List Char) := splitAux [] l

/-- The tailing cursor state: the file's current content (the log only
grows) and `self._tail_pos`, counted in characters. -/
structure TailState where
  content : List Char
  pos : Nat
deriving DecidableEq, Repr

/-- Inserts into the modelled Python set `zones_touched` (membership is
the only observable the claims use). -/
def insertTouched (acc : List Int) (z : Int) : List Int :=
  if z ∈ acc then acc else acc ++ [z]

/-- Result of one `_tail_tick`: the advanced cursor, the updated zone
map, the set of touched zones driving the redraw loop, and whether the
tick's `try` caught an exception (in which case the redraw loop after
the ingestion loop is skipped). -/
structure TickResult where
  tail : TailState
  zones : ZoneMap
  touched : List Int
  err : Bool
deriving Repr

/-- The per-line loop of `_tail_tick` (lines 437-452): compute the
fallback guess from the raw text first, ingest, then record the parsed
zone, else the guess. An uncaught exception from `_ingest_line` aborts
the loop; `zones_touched` accumulated so far never reaches the redraw
loop in that case. -/
def tick_loop (parseFn : List Char → Parsed) :
    ZoneMap → List Int → List (List Char) → ZoneMap × List Int × Bool
  | m, acc, [] => (m, acc, false)
  | m, acc, line :: rest =>
    let z_guess : Option Int :=
      if containsTelL line then zoneScan line else none
    match ingest_line m (parseFn line) with
    | (m1, .exn) => (m1, acc, true)
    | (m1, .ret zo) =>
      let acc1 :=
        match zo with
        | some z => insertTouched acc z
        | none =>
          match z_guess with
          | some g => insertTouched acc g
          | none => acc
      tick_loop parseFn m1 acc1 rest

/-- Source `_tail_tick` with an active tail file: seek to `_tail_pos`,
`readlines()`, advance the cursor to the end of what was read (before
the ingestion loop runs), then process each line. `parseFn` supplies the
`json.loads` outcome of each stripped raw line. -/
def tail_tick (parseFn : List Char → Parsed) (st : TailState) (m : ZoneMap) :
    TickResult :=
  let new_lines := splitLinesKeep (st.content.drop st.pos)
  if new_lines.isEmpty then ⟨st, m, [], false⟩
  else
    let st1 : TailState := { st with pos := st.content.length }
    let r := tick_loop parseFn m [] new_lines
    ⟨st1, r.1, r.2.1, r.2.2⟩

/-- One state-changing operation of the viewer, for stating invariants
over arbitrary operation sequences: ingesting one log line (full-load or
tail path), the per-tab Clear-plot button, or the `open_log` reset. -/
inductive Op where
  | line (p : Parsed)
  | clearZone (z : Int)
  | reload

/-- The Clear-plot button for zone `z`: `self.series.clear_trace()`. -/
def clear_trace_app : ZoneMap → Int → ZoneMap
  | [], _ => []
  | (k, v) :: rest, z =>
    (if k = z then (k, v.clear_trace) else (k, v)) :: clear_trace_app rest z

/-- Applies one operation to the zone map. -/
def applyOp (m : ZoneMap) : Op → ZoneMap
  | .line p => (ingest_line m p).1
  | .clearZone z => clear_trace_app m z
  | .reload => resetAll m

/-- Applies a sequence of operations in order. -/
def applyOps (m : ZoneMap) (ops : List Op) : ZoneMap := ops.foldl applyOp m


/-- Characterizes, from the parse outcome alone, whether `_ingest_line`
lets an exception escape: a non-object JSON value (`.get` raises
`AttributeError`), or a telemetry line whose `float(pv)` raises. The
branch structure mirrors `ingest_line`; the state argument never affects
this outcome. -/
def raisesOn : Parsed → Bool
  | .fail => false
  | .scalar _ => true
  | .obj o =>
    if pyGet o "type" = PVal.vstr "event" then false
    else if pyGet o "type" = PVal.vstr "telemetry" then
      match pyToInt? (pyGet o "zone") with
      | some _ =>
        match resolveDt o with
        | none => false
        | some _ =>
          match pvVal? (pyGet o "pv_c") with
          | .exn => true
          | .val _ => false
      | none => false
    else false

/-- The zone id `_ingest_line` returns, from the parse outcome alone:
`some z` exactly for a telemetry object with an integer zone (events and
everything else return `None`). -/
def parsedZone : Parsed → Option Int
  | .obj o =>
    if pyGet o "type" = PVal.vstr "event" then none
    else if pyGet o "type" = PVal.vstr "telemetry" then pyToInt? (pyGet o "zone")
    else none
  | _ => none

/-- Every zone record in the map has as many timestamps as values. -/
def balanced (m : ZoneMap) : Prop :=
  ∀ p ∈ m, p.2.t.length = p.2.pv.length

/-! ### Concrete log messages used as witnesses and counterexamples -/

/-- The value 72.5 as a reduced fraction, so that kernel evaluation of
equality never has to normalize (Rat normalization uses well-founded
recursion, which the kernel cannot reduce). -/
def r72p5 : ℚ := ⟨145, 2, by decide, by norm_num⟩

/-- The value 73.1 as a reduced fraction. -/
def r73p1 : ℚ := ⟨731, 10, by decide, by norm_num⟩

/-- The first telemetry line of the spec scenario (§8): zone 1, epoch
1700000000, pv 72.5, sp 75.0, out 40.0, PID/AUTO, autotune false. -/
def telObjA : PObj :=
  [("type", .vstr "telemetry"), ("zone", .vint 1),
   ("t_epoch_s", .vint 1700000000), ("pv_c", .vnum r72p5),
   ("sp_abs_c", .vnum 75), ("output_pct", .vnum 40),
   ("method", .vstr "PID"), ("mode", .vstr "AUTO"), ("autotune", .vbool false)]

/-- The second telemetry line of the spec scenario: pv 73.1, out 38.0. -/
def telObjB : PObj :=
  [("type", .vstr "telemetry"), ("zone", .vint 1),
   ("t_epoch_s", .vint 1700000010), ("pv_c", .vnum r73p1),
   ("sp_abs_c", .vnum 75), ("output_pct", .vnum 38),
   ("method", .vstr "PID"), ("mode", .vstr "AUTO"), ("autotune", .vbool false)]

/-- The event line of the spec scenario: autotune_setpoint_c 80.0. -/
def evObjA : PObj :=
  [("type", .vstr "event"), ("zone", .vint 1), ("autotune_setpoint_c", .vnum 80)]

/-- A telemetry message with a valid zone but neither `t_epoch_s` nor
`ts`, carrying a fresh pv value. -/
def badTel : PObj :=
  [("type", .vstr "telemetry"), ("zone", .vint 1), ("pv_c", .vint 99)]

/-- An event carrying `autotune_sp_c = 0` together with the lower-priority
alias `autotune_setpoint = 9`. -/
def evZero : PObj :=
  [("type", .vstr "event"), ("zone", .vint 1),
   ("autotune_sp_c", .vint 0), ("autotune_setpoint", .vint 9)]

/-- An event with a valid zone and no autotune-setpoint alias at all. -/
def evNoAlias : PObj := [("type", .vstr "event"), ("zone", .vint 3)]

/-- A telemetry line with a resolvable timestamp whose `pv_c` is JSON
null (Python `None`). -/
def nullPvTel : PObj :=
  [("type", .vstr "telemetry"), ("zone", .vint 2),
   ("t_epoch_s", .vint 1700000000), ("pv_c", .vnone),
   ("sp_abs_c", .vint 50), ("method", .vstr "PID")]

/-- The raw text of a malformed JSON line that nevertheless contains the
literal telemetry marker the counters scan for. -/
def badRawLine : List Char := "\x7b\"type\": \"telemetry\", broken".data

/-- The raw text of a transiently truncated telemetry write: it fails to
parse as JSON but contains the telemetry marker and a zone field. -/
def truncLine : List Char :=
  "\x7b\"type\": \"telemetry\", \"zone\": 3, \"pv".data

/-- A parse oracle under which every raw line is malformed JSON. -/
def parseAllFail : List Char → Parsed := fun _ => Parsed.fail

/-! ### Lookup lemmas for the zone map -/

@[simp]
theorem findZone_nil (z : Int) : findZone [] z = none := rfl

@[simp]
theorem findZone_cons (k : Int) (s : ZoneSeries) (rest : ZoneMap) (z : Int) :
    findZone ((k, s) :: rest) z = if k = z then some s else findZone rest z :=
  rfl

theorem findZone_append_of_none (m : ZoneMap) (z : Int) (s : ZoneSeries)
    (h : findZone m z = none) : findZone (m ++ [(z, s)]) z = some s := by
  induction m with
  | nil => simp
  | cons p rest ih =>
    obtain ⟨k, v⟩ := p
    simp only [findZone_cons] at h ⊢
    by_cases hk : k = z
    · simp [hk] at h
    · simpa [hk] using ih (by simpa [hk] using h)

theorem findZone_ensure_self (m : ZoneMap) (z : Int) :
    findZone (ensure_zone m z) z = some (getZone m z) := by
  unfold ensure_zone getZone
  cases h : findZone m z with
  | some s => simp [h]
  | none => simp [h, findZone_append_of_none m z _ h]

theorem getZone_ensure_self (m : ZoneMap) (z : Int) :
    getZone (ensure_zone m z) z = getZone m z := by
  unfold getZone
  rw [findZone_ensure_self]
  rfl

theorem findZone_ensure_ne (m : ZoneMap) (z w : Int) (hw : w ≠ z) :
    findZone (ensure_zone m z) w = findZone m w := by
  unfold ensure_zone
  cases h : findZone m z with
  | some s => simp
  | none =>
    simp only [h, Option.isSome_none, Bool.false_eq_true, if_false]
    induction m with
    | nil =>
      simp only [List.nil_append, findZone_cons, findZone_nil]
      rw [if_neg (fun h1 => hw h1.symm)]
    | cons p rest ih =>
      obtain ⟨k, v⟩ := p
      simp only [findZone_cons] at h ⊢
      by_cases hk : k = z
      · simp [hk] at h
      · by_cases hkw : k = w
        · simp [hkw]
        · simpa [hkw] using ih (by simpa [hk] using h)

theorem findZone_setZone_self (m : ZoneMap) (z : Int) (s : ZoneSeries) :
    findZone (setZone m z s) z = (findZone m z).map (fun _ => s) := by
  induction m with
  | nil => simp [setZone]
  | cons p rest ih =>
    obtain ⟨k, v⟩ := p
    by_cases hk : k = z
    · simp [setZone, hk]
    · simp only [setZone, if_neg hk, findZone_cons, if_neg (hk : ¬ k = z)]
      exact ih

theorem findZone_setZone_ne (m : ZoneMap) (z w : Int) (s : ZoneSeries)
    (hw : w ≠ z) : findZone (setZone m z s) w = findZone m w := by
  induction m with
  | nil => simp [setZone]
  | cons p rest ih =>
    obtain ⟨k, v⟩ := p
    simp only [setZone]
    by_cases hk : k = z
    · subst hk
      rw [if_pos rfl]
      simp only [findZone_cons]
      rw [if_neg (fun h1 => hw h1.symm), if_neg (fun h1 => hw h1.symm)]
      exact ih
    · simp only [if_neg hk, findZone_cons]
      by_cases hkw : k = w
      · simp [hkw]
      · rw [if_neg hkw, if_neg hkw]
        exact ih

theorem getZone_setZone_self (m : ZoneMap) (z : Int) (s : ZoneSeries)
    (h : (findZone m z).isSome) : getZone (setZone m z s) z = s := by
  unfold getZone
  rw [findZone_setZone_self]
  cases hz : findZone m z with
  | some v => rfl
  | none => rw [hz] at h; simp at h

/-! ### The series-length invariant (claim C10) -/

theorem balanced_getZone (m : ZoneMap) (z : Int) (h : balanced m) :
    (getZone m z).t.length = (getZone m z).pv.length := by
  unfold getZone
  cases hz : findZone m z with
  | none => rfl
  | some s =>
    have hmem : ∃ k, (k, s) ∈ m := by
      clear h
      induction m with
      | nil => simp [findZone] at hz
      | cons p rest ih =>
        obtain ⟨k, v⟩ := p
        simp only [findZone_cons] at hz
        by_cases hk : k = z
        · simp [hk] at hz
          exact ⟨k, by simp [hz]⟩
        · obtain ⟨k1, hk1⟩ := ih (by simpa [hk] using hz)
          exact ⟨k1, by simp [hk1]⟩
    obtain ⟨k, hk⟩ := hmem
    exact h (k, s) hk

theorem balanced_ensure (m : ZoneMap) (z : Int) (h : balanced m) :
    balanced (ensure_zone m z) := by
  unfold ensure_zone
  split
  · exact h
  · intro p hp
    rcases List.mem_append.mp hp with h1 | h1
    · exact h p h1
    · simp at h1
      subst h1
      rfl

theorem balanced_setZone (m : ZoneMap) (z : Int) (s : ZoneSeries)
    (hs : s.t.length = s.pv.length) :
    balanced m → balanced (setZone m z s) := by
  induction m with
  | nil =>
    intro _ p hp
    simp [setZone] at hp
  | cons q rest ih =>
    obtain ⟨k, v⟩ := q
    intro h p hp
    simp only [setZone] at hp
    rcases List.mem_cons.mp hp with h1 | h1
    · by_cases hk : k = z
      · rw [if_pos hk] at h1
        subst h1
        exact hs
      · rw [if_neg hk] at h1
        subst h1
        exact h (k, v) (by simp)
    · exact ih (fun r hr => h r (by simp [hr])) p h1

theorem balanced_applyEvent (m : ZoneMap) (o : PObj) (h : balanced m) :
    balanced (applyEvent m o).1 := by
  cases hz : pyToInt? (pyGet o "zone") with
  | none => simpa [applyEvent, hz] using h
  | some z =>
    have hE := balanced_ensure m z h
    have hg := balanced_getZone (ensure_zone m z) z hE
    by_cases hsp : eventSp o ≠ PVal.vnone
    · simp only [applyEvent, hz, if_pos hsp]
      exact balanced_setZone _ _ _ (by simpa using hg) hE
    · simp only [applyEvent, hz, if_neg hsp]
      exact hE

theorem balanced_applyTelemetry (m : ZoneMap) (o : PObj) (z : Int)
    (h : balanced m) : balanced (applyTelemetry m o z).1 := by
  have hE := balanced_ensure m z h
  have hg := balanced_getZone (ensure_zone m z) z hE
  cases hdt : resolveDt o with
  | none => simpa [applyTelemetry, hdt] using hE
  | some dt =>
    cases hpv : pvVal? (pyGet o "pv_c") with
    | exn => simpa [applyTelemetry, hdt, hpv] using hE
    | val pv_val =>
      cases pv_val with
      | none =>
        simp only [applyTelemetry, hdt, hpv]
        exact balanced_setZone _ _ _ (by simpa using hg) hE
      | some q =>
        simp only [applyTelemetry, hdt, hpv]
        exact balanced_setZone _ _ _ (by simp [hg]) hE

theorem balanced_ingest (m : ZoneMap) (p : Parsed) (h : balanced m) :
    balanced (ingest_line m p).1 := by
  cases p with
  | fail => exact h
  | scalar v => exact h
  | obj o =>
    by_cases h1 : pyGet o "type" = PVal.vstr "event"
    · simpa [ingest_line, h1] using balanced_applyEvent m o h
    · by_cases h2 : pyGet o "type" = PVal.vstr "telemetry"
      · cases hz : pyToInt? (pyGet o "zone") with
        | none => simp [ingest_line, h1, h2, hz]; exact h
        | some z =>
          simpa [ingest_line, h1, h2, hz] using balanced_applyTelemetry m o z h
      · simp [ingest_line, h1, h2]; exact h

/-! ### Outcome of one ingested line -/

theorem ingest_out_char (m : ZoneMap) (p : Parsed) (h : raisesOn p = false) :
    (ingest_line m p).2 = .ret (parsedZone p) := by
  cases p with
  | fail => rfl
  | scalar v => simp [raisesOn] at h
  | obj o =>
    by_cases h1 : pyGet o "type" = PVal.vstr "event"
    · simp only [ingest_line, if_pos h1, parsedZone]
      unfold applyEvent
      cases hz : pyToInt? (pyGet o "zone") with
      | none => rfl
      | some z =>
        simp only
        split <;> rfl
    · by_cases h2 : pyGet o "type" = PVal.vstr "telemetry"
      · cases hz : pyToInt? (pyGet o "zone") with
        | none => simp [ingest_line, h1, h2, hz, parsedZone]
        | some z =>
          simp only [raisesOn, if_neg h1, if_pos h2, hz] at h
          simp only [ingest_line, if_neg h1, if_pos h2, hz, parsedZone]
          cases hdt : resolveDt o with
          | none => simp [applyTelemetry, hdt]
          | some dt =>
            rw [hdt] at h
            cases hpv : pvVal? (pyGet o "pv_c") with
            | exn => rw [hpv] at h; simp at h
            | val q => simp [applyTelemetry, hdt, hpv]
      · simp [ingest_line, h1, h2, parsedZone]

/-! ### Touched-zone accumulation in the tail loop -/

theorem mem_insertTouched_self (acc : List Int) (z : Int) :
    z ∈ insertTouched acc z := by
  unfold insertTouched
  split
  · assumption
  · simp

theorem mem_insertTouched_of_mem (acc : List Int) (z x : Int) (hx : x ∈ acc) :
    x ∈ insertTouched acc z := by
  unfold insertTouched
  split
  · exact hx
  · simp [hx]

theorem tick_loop_mem_mono (f : List Char → Parsed) (lines : List (List Char))
    (m : ZoneMap) (acc : List Int) (x : Int) (hx : x ∈ acc) :
    x ∈ (tick_loop f m acc lines).2.1 := by
  induction lines generalizing m acc with
  | nil => simpa [tick_loop] using hx
  | cons line rest ih =>
    simp only [tick_loop]
    rcases hi : ingest_line m (f line) with ⟨m1, out⟩
    cases out with
    | exn => simpa using hx
    | ret zo =>
      simp only
      cases zo with
      | some z => exact ih m1 _ (mem_insertTouched_of_mem acc z x hx)
      | none =>
        cases hg : (if containsTelL line then zoneScan line else none) with
        | none => exact ih m1 _ hx
        | some g => exact ih m1 _ (mem_insertTouched_of_mem acc g x hx)

theorem tick_loop_marks (f : List Char → Parsed) (lines : List (List Char))
    (m : ZoneMap) (acc : List Int) (line : List Char) (g : Int)
    (hno : ∀ l ∈ lines, raisesOn (f l) = false)
    (hmem : line ∈ lines)
    (hzone : parsedZone (f line) = none)
    (htel : containsTelL line = true)
    (hscan : zoneScan line = some g) :
    g ∈ (tick_loop f m acc lines).2.1 := by
  induction lines generalizing m acc with
  | nil => simp at hmem
  | cons l0 rest ih =>
    have h0 : raisesOn (f l0) = false := hno l0 (by simp)
    have hout := ingest_out_char m (f l0) h0
    simp only [tick_loop]
    rcases hi : ingest_line m (f l0) with ⟨m1, out⟩
    rw [hi] at hout
    simp only at hout
    subst hout
    simp only
    rcases List.mem_cons.mp hmem with rfl | hmem1
    · rw [hzone, htel, hscan]
      exact tick_loop_mem_mono f rest m1 _ g (mem_insertTouched_self acc g)
    · cases hz : parsedZone (f l0) with
      | some z =>
        exact ih m1 _ (fun l hl => hno l (by simp [hl])) hmem1
      | none =>
        cases hg : (if containsTelL l0 then zoneScan l0 else none) with
        | none => exact ih m1 _ (fun l hl => hno l (by simp [hl])) hmem1
        | some g1 => exact ih m1 _ (fun l hl => hno l (by simp [hl])) hmem1

/-! ### Line splitting -/

theorem splitAux_eq_nil (l : List Char) (acc : List Char) :
    splitAux acc l = [] ↔ acc = [] ∧ l = [] := by
  induction l generalizing acc with
  | nil =>
    simp only [splitAux]
    split
    · next ha => simp [List.isEmpty_iff.mp ha]
    · next ha =>
      simp only [List.isEmpty_iff] at ha
      simp [ha]
  | cons c rest ih =>
    simp only [splitAux]
    by_cases hc : c = '\n'
    · simp [hc]
    · rw [if_neg hc, ih]
      simp

/-! ### Remaining invariant steps -/

theorem balanced_clear (m : ZoneMap) (z : Int) :
    balanced m → balanced (clear_trace_app m z) := by
  induction m with
  | nil =>
    intro _ p hp
    simp [clear_trace_app] at hp
  | cons q rest ih =>
    obtain ⟨k, v⟩ := q
    intro h p hp
    simp only [clear_trace_app] at hp
    rcases List.mem_cons.mp hp with h1 | h1
    · by_cases hk : k = z
      · rw [if_pos hk] at h1
        subst h1
        rfl
      · rw [if_neg hk] at h1
        subst h1
        exact h (k, v) (by simp)
    · exact ih (fun r hr => h r (by simp [hr])) p h1

theorem balanced_reset (m : ZoneMap) : balanced (resetAll m) := by
  intro p hp
  unfold resetAll at hp
  rcases List.mem_map.mp hp with ⟨q, hq, hpq⟩
  rw [← hpq]
  rfl

theorem balanced_applyOp (m : ZoneMap) (op : Op) (h : balanced m) :
    balanced (applyOp m op) := by
  cases op with
  | line p => exact balanced_ingest m p h
  | clearZone z => exact balanced_clear m z h
  | reload => exact balanced_reset m

theorem balanced_applyOps (ops : List Op) (m : ZoneMap) (h : balanced m) :
    balanced (applyOps m ops) := by
  induction ops generalizing m with
  | nil => exact h
  | cons op rest ih => exact ih (applyOp m op) (balanced_applyOp m op h)

/-! ### Claim C1 -/

/-- Claim C1, counterexample: after a good telemetry line for zone 1
(pv 72.5), ingesting a telemetry line with a valid zone but no resolvable
timestamp and `pv_c = 99` leaves the snapshot at 72.5 instead of
overwriting it with that message's values (the claim asserts the snapshot
fields are still overwritten), while the series is indeed unchanged. -/
theorem C1_counterexample :
    (getZone (ingest_line (ingest_line initState (.obj telObjA)).1
        (.obj badTel)).1 1).last_pv = PVal.vnum r72p5 ∧
    (r72p5 : ℚ) = 145 / 2 ∧
    pyGet badTel "pv_c" = PVal.vint 99 ∧
    (getZone (ingest_line (ingest_line initState (.obj telObjA)).1
        (.obj badTel)).1 1).t = [DT.ofEpoch 1700000000] := by
  refine ⟨by decide, ?_, by decide, by decide⟩
  rw [r72p5, Rat.mk'_eq_divInt, Rat.divInt_eq_div]
  norm_num

/-- Claim C1 as amended: a telemetry message with a valid integer zone
whose timestamp resolves neither from the epoch-seconds field nor from
the ISO-8601 string field leaves the zone's series AND every snapshot
field unchanged — the source returns before the snapshot writes; the only
effects are creating the zone if new and reporting its id as touched. -/
theorem C1_amended_thm (m : ZoneMap) (o : PObj) (z : Int)
    (htyp : pyGet o "type" = PVal.vstr "telemetry")
    (hz : pyToInt? (pyGet o "zone") = some z)
    (hdt : resolveDt o = none) :
    ingest_line m (.obj o) = (ensure_zone m z, .ret (some z)) := by
  have hne : ¬ pyGet o "type" = PVal.vstr "event" := by
    rw [htyp]
    decide
  simp [ingest_line, hne, htyp, hz, applyTelemetry, hdt]

/-- Claim C1, witness: the amended theorem applied to a concrete
timestampless telemetry message for zone 1. -/
theorem C1_amended_witness :
    ingest_line initState (.obj badTel) = (ensure_zone initState 1, .ret (some 1)) :=
  C1_amended_thm initState badTel 1 (by decide) (by decide) (by decide)

/-! ### Claim C2 -/

/-- Claim C2, code evaluation at the failing input: an event carrying
`autotune_sp_c = 0` and `autotune_setpoint = 9` stores 9 — the `or` chain
skips the legitimate zero and falls through to the lower-priority alias,
contradicting the claim (and the spec's mandated presence checks), which
require the stored value to be 0. -/
theorem C2_code_eval :
    (getZone (ingest_line initState (.obj evZero)).1 1).last_autotune_sp
        = PVal.vint 9 ∧
    pyGet evZero "autotune_sp_c" = PVal.vint 0 ∧
    eventSp evZero = PVal.vint 9 := by
  decide

/-! ### Claim C7 -/

/-- Claim C7: for every zone `z`, the clear-trace operation empties the
zone's series (both timestamp and value lists) and leaves every snapshot
field of that zone unchanged; every other zone's entry in the map is
untouched (lookup at any `w` gives the cleared record exactly when
`w = z`, else the old record). -/
theorem findZone_clearApp_self (m : ZoneMap) (z : Int) :
    findZone (clear_trace_app m z) z = (findZone m z).map ZoneSeries.clear_trace := by
  induction m with
  | nil => simp [clear_trace_app]
  | cons p rest ih =>
    obtain ⟨k, v⟩ := p
    by_cases hk : k = z
    · simp [clear_trace_app, hk]
    · simp only [clear_trace_app, if_neg hk, findZone_cons, if_neg (hk : ¬ k = z)]
      exact ih

theorem findZone_clearApp_ne (m : ZoneMap) (z w : Int) (hw : w ≠ z) :
    findZone (clear_trace_app m z) w = findZone m w := by
  induction m with
  | nil => simp [clear_trace_app]
  | cons p rest ih =>
    obtain ⟨k, v⟩ := p
    simp only [clear_trace_app]
    by_cases hk : k = z
    · subst hk
      rw [if_pos rfl]
      simp only [findZone_cons]
      rw [if_neg (fun h1 => hw h1.symm), if_neg (fun h1 => hw h1.symm)]
      exact ih
    · simp only [if_neg hk, findZone_cons]
      by_cases hkw : k = w
      · simp [hkw]
      · rw [if_neg hkw, if_neg hkw]
        exact ih

theorem C7_thm (m : ZoneMap) (z w : Int) (s : ZoneSeries) :
    (s.clear_trace.t = [] ∧ s.clear_trace.pv = [] ∧
     s.clear_trace.last_pv = s.last_pv ∧ s.clear_trace.last_sp = s.last_sp ∧
     s.clear_trace.last_out = s.last_out ∧
     s.clear_trace.last_method = s.last_method ∧
     s.clear_trace.last_mode = s.last_mode ∧
     s.clear_trace.last_autotune = s.last_autotune ∧
     s.clear_trace.last_autotune_sp = s.last_autotune_sp) ∧
    findZone (clear_trace_app m z) w
      = if w = z then (findZone m w).map ZoneSeries.clear_trace
        else findZone m w := by
  refine ⟨⟨rfl, rfl, rfl, rfl, rfl, rfl, rfl, rfl, rfl⟩, ?_⟩
  by_cases hw : w = z
  · subst hw
    rw [if_pos rfl]
    exact findZone_clearApp_self m w
  · rw [if_neg hw]
    exact findZone_clearApp_ne m z w hw

/-! ### Claim C8 -/

/-- Claim C8: ingesting, from the initial state, the spec scenario's two
telemetry lines for zone 1 followed by the autotune event yields the
series [(1700000000, 72.5), (1700000010, 73.1)], snapshot pv 73.1, and
snapshot autotune setpoint 80.0. -/
theorem C8_thm :
    (getZone (ingest_line (ingest_line (ingest_line initState
        (.obj telObjA)).1 (.obj telObjB)).1 (.obj evObjA)).1 1).t
      = [DT.ofEpoch 1700000000, DT.ofEpoch 1700000010] ∧
    (getZone (ingest_line (ingest_line (ingest_line initState
        (.obj telObjA)).1 (.obj telObjB)).1 (.obj evObjA)).1 1).pv
      = [r72p5, r73p1] ∧
    (r72p5 : ℚ) = 145 / 2 ∧ (r73p1 : ℚ) = 731 / 10 ∧
    (getZone (ingest_line (ingest_line (ingest_line initState
        (.obj telObjA)).1 (.obj telObjB)).1 (.obj evObjA)).1 1).last_pv
      = PVal.vnum r73p1 ∧
    (getZone (ingest_line (ingest_line (ingest_line initState
        (.obj telObjA)).1 (.obj telObjB)).1 (.obj evObjA)).1 1).last_autotune_sp
      = PVal.vnum 80 := by
  refine ⟨by decide, by decide, ?_, ?_, by decide, by decide⟩
  · rw [r72p5, Rat.mk'_eq_divInt, Rat.divInt_eq_div]
    norm_num
  · rw [r73p1, Rat.mk'_eq_divInt, Rat.divInt_eq_div]
    norm_num

/-! ### Claim C10 -/

/-- Claim C10: after any sequence of viewer operations (ingesting any log
line, clearing any zone's trace, the full-reload reset) starting from the
initial state, every zone's timestamp list and process-value list have
equal length. -/
theorem C10_thm (ops : List Op) (z : Int) :
    (getZone (applyOps initState ops) z).t.length
      = (getZone (applyOps initState ops) z).pv.length := by
  refine balanced_getZone _ z (balanced_applyOps ops initState ?_)
  show ∀ p ∈ initState, p.2.t.length = p.2.pv.length
  decide

/-! ### Counterexamples for claims C3 and C4 -/

/-- Claim C3, counterexample: a full load over a single malformed JSON
line whose raw text contains the telemetry marker reports lines=1 and
telemetry=1 — the claim asserts such a line is excluded from both
counters — while zone state is indeed unchanged (still the reset state). -/
theorem C3_counterexample :
    (open_log_model initState [(badRawLine, Parsed.fail)]).n_lines = 1 ∧
    (open_log_model initState [(badRawLine, Parsed.fail)]).n_tel = 1 ∧
    (open_log_model initState [(badRawLine, Parsed.fail)]).state
      = resetAll initState := by
  decide

/-- Claim C4, counterexample: with file content "abc" (no terminating
newline) and the cursor at 0, a tail tick advances the cursor to 3 — past
the unterminated trailing fragment — although the content contains no
complete newline-terminated line, so the claim's prediction (cursor not
advanced past the fragment, i.e. still 0) is false. -/
theorem C4_counterexample :
    (tail_tick parseAllFail
        { content := "abc".data, pos := 0 } initState).tail.pos = 3 ∧
    "abc".data.count '\n' = 0 := by
  decide

/-! ### Claim C3, amended -/

/-- Claim C3 as amended: a line that is malformed JSON, or whose `type`
is missing or neither "telemetry" nor "event", leaves every zone's series
and snapshot unchanged — but it IS included in the full-load line count,
which counts every physical line, and it is included in the telemetry
count exactly when its raw text contains the literal substring
`"type": "telemetry"`. -/
theorem C3_amended_thm (m : ZoneMap) (nl nt : Nat)
    (rest : List (List Char × Parsed)) (raw : List Char) (p : Parsed)
    (hbad : p = Parsed.fail ∨ ∃ o, p = Parsed.obj o ∧
      pyGet o "type" ≠ PVal.vstr "event" ∧
      pyGet o "type" ≠ PVal.vstr "telemetry") :
    ingest_line m p = (m, .ret none) ∧
    load_loop m nl nt ((raw, p) :: rest)
      = load_loop m (nl + 1) (if containsTelL raw then nt + 1 else nt) rest := by
  have hing : ingest_line m p = (m, .ret none) := by
    rcases hbad with h | ⟨o, rfl, h1, h2⟩
    · subst h
      rfl
    · simp [ingest_line, h1, h2]
  refine ⟨hing, ?_⟩
  simp only [load_loop, hing]

/-- Claim C3, witness: the amended theorem applied to a single malformed
line containing the telemetry marker. -/
theorem C3_amended_witness :
    ingest_line initState Parsed.fail = (initState, .ret none) ∧
    load_loop initState 0 0 [(badRawLine, Parsed.fail)]
      = load_loop initState (0 + 1)
          (if containsTelL badRawLine then 0 + 1 else 0) [] :=
  C3_amended_thm initState 0 0 [] badRawLine Parsed.fail (Or.inl rfl)

/-! ### Claim C4, amended -/

/-- Claim C4 as amended: after every tail tick, the cursor is unchanged
when nothing was readable past it, and otherwise advances to the end of
the current content — including past an unterminated trailing fragment,
which is ingested immediately as if complete rather than buffered for
re-reading on a later tick. -/
theorem C4_amended_thm (f : List Char → Parsed) (st : TailState) (m : ZoneMap) :
    (tail_tick f st m).tail.pos
      = if st.content.length ≤ st.pos then st.pos else st.content.length := by
  by_cases h : st.content.length ≤ st.pos
  · have hdrop : st.content.drop st.pos = [] := List.drop_eq_nil_of_le h
    simp [tail_tick, splitLinesKeep, hdrop, splitAux, h]
  · have hne : splitLinesKeep (st.content.drop st.pos) ≠ [] := by
      rw [Ne, splitLinesKeep, splitAux_eq_nil]
      intro hc
      exact h (List.drop_eq_nil_iff.mp hc.2)
    have hie : (splitLinesKeep (st.content.drop st.pos)).isEmpty = false := by
      cases hsp : splitLinesKeep (st.content.drop st.pos) with
      | nil => exact absurd hsp hne
      | cons a b => rfl
    simp [tail_tick, hie, h]

/-! ### Claim C5 -/

/-- Claim C5: a telemetry message with a valid zone and a resolvable
timestamp whose `pv_c` is null or NaN does not extend the zone's series
(the updated record keeps the previous `t` and `pv` lists) but overwrites
every other snapshot field from the message, recording the null/NaN pv
verbatim in `last_pv`. -/
theorem C5_thm (m : ZoneMap) (o : PObj) (z : Int) (dt : DT)
    (htyp : pyGet o "type" = PVal.vstr "telemetry")
    (hz : pyToInt? (pyGet o "zone") = some z)
    (hdt : resolveDt o = some dt)
    (hnan : is_nan (pyGet o "pv_c") = true) :
    ingest_line m (.obj o)
      = (setZone (ensure_zone m z) z
          { getZone (ensure_zone m z) z with
            last_pv := pyGet o "pv_c"
            last_sp := pyGet o "sp_abs_c"
            last_out := pyGet o "output_pct"
            last_method := pyGetD o "method" (PVal.vstr "—")
            last_mode := pyGetD o "mode" (PVal.vstr "—")
            last_autotune := pyGet o "autotune"
            last_autotune_sp := telemetrySp o
              (getZone (ensure_zone m z) z).last_autotune_sp },
        .ret (some z)) := by
  have hne : ¬ pyGet o "type" = PVal.vstr "event" := by
    rw [htyp]
    decide
  have hpv : pvVal? (pyGet o "pv_c") = PvRes.val none := by
    simp [pvVal?, hnan]
  simp [ingest_line, hne, htyp, hz, applyTelemetry, hdt, hpv]

/-- Claim C5, witness: the theorem applied to a telemetry line for zone
2 with an epoch timestamp and `pv_c` null. -/
theorem C5_witness :
    ingest_line initState (.obj nullPvTel)
      = (setZone (ensure_zone initState 2) 2
          { getZone (ensure_zone initState 2) 2 with
            last_pv := pyGet nullPvTel "pv_c"
            last_sp := pyGet nullPvTel "sp_abs_c"
            last_out := pyGet nullPvTel "output_pct"
            last_method := pyGetD nullPvTel "method" (PVal.vstr "—")
            last_mode := pyGetD nullPvTel "mode" (PVal.vstr "—")
            last_autotune := pyGet nullPvTel "autotune"
            last_autotune_sp := telemetrySp nullPvTel
              (getZone (ensure_zone initState 2) 2).last_autotune_sp },
        .ret (some 2)) :=
  C5_thm initState nullPvTel 2 (DT.ofEpoch 1700000000)
    (by decide) (by decide) (by decide) (by decide)

/-! ### Claim C6 -/

/-- Claim C6: an event message with a valid integer zone can change only
that zone's `autotune_setpoint`: the zone's series and all other snapshot
fields are unchanged, every other zone's entry is untouched, and an event
lacking every alias field (all five alias lookups give `None`) leaves
`autotune_setpoint` at its previous value. -/
theorem C6_thm (m : ZoneMap) (o : PObj) (z : Int)
    (htyp : pyGet o "type" = PVal.vstr "event")
    (hz : pyToInt? (pyGet o "zone") = some z) :
    ((getZone (ingest_line m (.obj o)).1 z).t
        = (getZone (ensure_zone m z) z).t ∧
     (getZone (ingest_line m (.obj o)).1 z).pv
        = (getZone (ensure_zone m z) z).pv ∧
     (getZone (ingest_line m (.obj o)).1 z).last_pv
        = (getZone (ensure_zone m z) z).last_pv ∧
     (getZone (ingest_line m (.obj o)).1 z).last_sp
        = (getZone (ensure_zone m z) z).last_sp ∧
     (getZone (ingest_line m (.obj o)).1 z).last_out
        = (getZone (ensure_zone m z) z).last_out ∧
     (getZone (ingest_line m (.obj o)).1 z).last_method
        = (getZone (ensure_zone m z) z).last_method ∧
     (getZone (ingest_line m (.obj o)).1 z).last_mode
        = (getZone (ensure_zone m z) z).last_mode ∧
     (getZone (ingest_line m (.obj o)).1 z).last_autotune
        = (getZone (ensure_zone m z) z).last_autotune) ∧
    (∀ w, w ≠ z → findZone (ingest_line m (.obj o)).1 w = findZone m w) ∧
    ((pyGet o "autotune_sp_c" = PVal.vnone ∧
      pyGet o "autotune_setpoint_c" = PVal.vnone ∧
      pyGet o "autotune_setpoint" = PVal.vnone ∧
      pyGet o "sp" = PVal.vnone ∧
      pyGet o "setpoint" = PVal.vnone) →
      (getZone (ingest_line m (.obj o)).1 z).last_autotune_sp
        = (getZone (ensure_zone m z) z).last_autotune_sp) := by
  have hmain : ingest_line m (.obj o) = applyEvent m o := by
    simp [ingest_line, htyp]
  rw [hmain]
  have hsome : (findZone (ensure_zone m z) z).isSome := by
    rw [findZone_ensure_self]
    rfl
  by_cases hsp : eventSp o ≠ PVal.vnone
  · have happ : (applyEvent m o).1
        = setZone (ensure_zone m z) z
            { getZone (ensure_zone m z) z with last_autotune_sp := eventSp o } := by
      simp [applyEvent, hz, hsp]
    rw [happ]
    refine ⟨?_, ?_, ?_⟩
    · rw [getZone_setZone_self _ _ _ hsome]
      exact ⟨rfl, rfl, rfl, rfl, rfl, rfl, rfl, rfl⟩
    · intro w hw
      rw [findZone_setZone_ne _ _ _ _ hw, findZone_ensure_ne m z w hw]
    · intro habs
      exfalso
      apply hsp
      obtain ⟨h1, h2, h3, h4, h5⟩ := habs
      simp [eventSp, pyOr, truthy, h1, h2, h3, h4, h5]
  · have hsp1 : eventSp o = PVal.vnone := not_not.mp hsp
    have happ : (applyEvent m o).1 = ensure_zone m z := by
      simp [applyEvent, hz, hsp1]
    rw [happ]
    refine ⟨⟨rfl, rfl, rfl, rfl, rfl, rfl, rfl, rfl⟩, ?_, ?_⟩
    · intro w hw
      exact findZone_ensure_ne m z w hw
    · intro _
      rfl

/-- Claim C6, witness: the theorem applied to an alias-free event for
zone 3, extracting the closed conjuncts (series and autotune-setpoint
retention, plus the frame at zone 5). -/
theorem C6_witness :
    (getZone (ingest_line initState (.obj evNoAlias)).1 3).last_autotune_sp
      = (getZone (ensure_zone initState 3) 3).last_autotune_sp ∧
    (getZone (ingest_line initState (.obj evNoAlias)).1 3).t
      = (getZone (ensure_zone initState 3) 3).t ∧
    findZone (ingest_line initState (.obj evNoAlias)).1 5 = findZone initState 5 := by
  have h := C6_thm initState evNoAlias 3 (by decide) (by decide)
  exact ⟨h.2.2 (by decide), h.1.1, h.2.1 5 (by decide)⟩

/-! ### Claim C9 -/

/-- Claim C9: during a tail tick in which no line raises (each line is
either malformed JSON or a decoded object), every raw line whose full
parse-and-apply yields no zone but whose raw text contains the telemetry
marker and from which the textual scan extracts a zone id `g` contributes
`g` to the set of touched zones returned by the tick. -/
theorem C9_thm (f : List Char → Parsed) (st : TailState) (m : ZoneMap)
    (line : List Char) (g : Int)
    (hno : ∀ l ∈ splitLinesKeep (st.content.drop st.pos), raisesOn (f l) = false)
    (hmem : line ∈ splitLinesKeep (st.content.drop st.pos))
    (hzone : parsedZone (f line) = none)
    (htel : containsTelL line = true)
    (hscan : zoneScan line = some g) :
    g ∈ (tail_tick f st m).touched := by
  have hie : (splitLinesKeep (st.content.drop st.pos)).isEmpty = false := by
    cases hsp : splitLinesKeep (st.content.drop st.pos) with
    | nil =>
      rw [hsp] at hmem
      simp at hmem
    | cons a b => rfl
  simp only [tail_tick, hie, Bool.false_eq_true, if_false]
  exact tick_loop_marks f _ m [] line g hno hmem hzone htel hscan

/-- Claim C9, witness: a tick over one transiently truncated telemetry
line (malformed JSON containing the marker and a zone field) marks zone
3 as touched. -/
theorem C9_witness :
    (3 : Int) ∈ (tail_tick parseAllFail
        { content := truncLine, pos := 0 } initState).touched :=
  C9_thm parseAllFail { content := truncLine, pos := 0 } initState truncLine 3
    (by decide) (by decide) (by decide) (by decide) (by decide)

end CN616A
